import Mathlib

/-!
Shallow embedding of the instrumented run orchestrator of `etrace`
(`cmd/etrace/main.go`, function `cmdRun.Execute`).

External collaborators (trace parser, xdotool, wmctrl, snap, script runner,
cache flush, file opening) are modelled as per-trial oracles in `TrialEnv`:
each field holds the outcome the collaborator would return at its single
call site in the trial.  Durations are natural numbers.  Go `defer`
semantics are modelled faithfully: deferred actions registered inside the
trial loop accumulate on a stack and run, last-in first-out, when the whole
function exits (on normal return, on a fatal-error return, and during a
panic unwind).  The observable behaviour of a run is its outcome (normal
result, fatal error, or panic), the list of per-trial event segments, and
the final defer-flush event list.
-/

namespace Etrace

/-- Go error values: either an error produced by a collaborator, or a
wrapping via `fmt.Errorf("ctx: %w", err)` as done by `logError` call sites. -/
inductive GoErr where
  | mk (msg : String)
  | wrap (ctx : String) (cause : GoErr)
deriving DecidableEq, Repr

/-- The structured timing breakdown produced by the trace parser
(`strace.ExecveTiming`); opaque to the orchestrator except for its
total-duration field (`TotalTime`, used at main.go line 371). -/
structure ExecveTiming where
  TotalTime : Nat
deriving DecidableEq, Repr

/-- One per-trial result record (main.go lines 56-62). -/
structure Execution where
  ExecveTiming : Option ExecveTiming
  TimeToDisplay : Nat
  TimeToRun : Nat
  Errors : List GoErr
deriving DecidableEq, Repr

/-- The aggregated result of a run (main.go lines 50-54). -/
structure OutputResult where
  Runs : List Execution
deriving DecidableEq, Repr

/-- Observable actions of the control thread, in program order.  `awaitDone`
is the receive on the completion channel of the background trace reader
(`<-doneCh`, line 342); `removeTmpDir` is the deferred
`os.RemoveAll(straceTmp)` (line 169); `closeSentinel` is `fw.Close()`
(explicit at line 339 and deferred at line 180). -/
inductive Event where
  | createTmpDir (trial : Nat)
  | removeTmpDir (trial : Nat)
  | closeSentinel (trial : Nat)
  | awaitDone (trial : Nat)
  | discardNs (trial : Nat) (snap : String)
  | startProcess (trial : Nat)
  | waitWindow (trial : Nat)
  | pidQuery (trial : Nat) (wid : String)
  | closeWin (trial : Nat) (wid : String)
  | kill (trial : Nat) (pid : Int)
  | wmctrlClose (trial : Nat)
  | appendRun (trial : Nat)
  | closeLogFile (trial : Nat)
deriving DecidableEq, Repr

/-- Outcome of `proc.Signal(os.Kill)` (lines 317-324): success, the
"process already finished" condition (not an error), or another failure. -/
inductive SignalOutcome where
  | ok
  | alreadyFinished
  | failed (e : GoErr)
deriving DecidableEq, Repr

/-- `xdotool.Window` window specifier; the zero value has both fields "". -/
structure Window where
  Class : String
  Name : String
deriving DecidableEq, Repr

/-- The per-invocation configuration: the flags of `Command` and `cmdRun`
(main.go lines 44-83) plus the positional command. -/
structure Config where
  ShowErrors : Bool
  AdditionalIterations : Nat
  WindowName : String
  PrepareScript : String
  PrepareScriptArgs : List String
  RestoreScript : String
  RestoreScriptArgs : List String
  WindowClass : String
  NoTrace : Bool
  RunThroughSnap : Bool
  DiscardSnapNs : Bool
  ProgramStdoutLog : String
  ProgramStderrLog : String
  JSONOutput : Bool
  OutputFile : String
  NoWindowWait : Bool
  Cmd : List String
deriving DecidableEq, Repr

/-- Per-trial collaborator oracle: for each external call the trial makes,
the result that call would return. -/
structure TrialEnv where
  prepareResult : Option GoErr
  tempDir : Except GoErr Unit
  mkfifo : Option GoErr
  openFifo : Except GoErr Unit
  parseResult : Except GoErr ExecveTiming
  traceCmd : Except GoErr Unit
  stdoutOpen : Except GoErr Unit
  stderrOpen : Except GoErr Unit
  discardNsResult : String → Option GoErr
  freeCaches : Option GoErr
  startErr : Option GoErr
  waitForWindow : Window → Except GoErr (List String)
  pidForWindowID : String → Except GoErr Int
  closeWindowID : String → Option GoErr
  signal : Int → SignalOutcome
  wmctrl : String → Option GoErr
  restoreResult : Option GoErr
  startupTime : Nat

/-- Go `path/filepath.Base` restricted to the unix separator: empty path
gives ".", trailing separators are stripped, the part after the last
separator is kept, and an all-separator path gives "/". -/
def filepathBase (path : String) : String :=
  if path = "" then "."
  else
    match List.dropWhile (fun c => c == '/') path.data.reverse with
    | [] => "/"
    | c :: cs => String.mk (List.takeWhile (fun x => !(x == '/')) (c :: cs)).reverse

/-- The window-spec resolution of main.go lines 245-261: prefer the class
override, then the window name, else derive the class from the base name of
the first token of the original command. -/
def resolveWindowSpec (windowClass windowName cmd0 : String) : Window :=
  if windowClass ≠ "" then { Class := windowClass, Name := "" }
  else if windowName ≠ "" then { Class := "", Name := windowName }
  else { Class := filepathBase cmd0, Name := "" }

/-- The window spec a trial passes to `xtool.WaitForWindow`; note it is
derived from the original `x.Args.Cmd`, not the snap-run adjusted command. -/
def windowSpecOf (cfg : Config) : Window :=
  resolveWindowSpec cfg.WindowClass cfg.WindowName (cfg.Cmd.headD "")

/-- State of the pid-resolution loop of main.go lines 294-303: the final
`pids` slice (zero placeholders where resolution never ran), the errors
logged, whether `tryWmctrl` was forced, and the pid queries issued. -/
structure PidStage where
  pids : List Int
  errs : List GoErr
  force : Bool
  events : List Event
deriving Repr

/-- Lines 294-303: resolve a pid per window id; on the first failure log the
error, force the wmctrl fallback and break out of the loop, leaving the
remaining slots of the pre-allocated `pids` slice at zero. -/
def resolvePids (t : Nat) (f : String → Except GoErr Int) : List String → PidStage
  | [] => ⟨[], [], false, []⟩
  | wid :: rest =>
    match f wid with
    | Except.ok pid =>
      let s := resolvePids t f rest
      ⟨pid :: s.pids, s.errs, s.force, Event.pidQuery t wid :: s.events⟩
    | Except.error e =>
      ⟨0 :: rest.map (fun _ => (0 : Int)),
       [GoErr.wrap ("getting pid for wid " ++ wid) e], true,
       [Event.pidQuery t wid]⟩

/-- State of the window-closing loop of main.go lines 306-312. -/
structure CloseStage where
  errs : List GoErr
  force : Bool
  events : List Event
deriving Repr

/-- Lines 306-312: attempt a graceful close of every window id; failures are
logged and force the wmctrl fallback, the loop never breaks. -/
def closeWindows (t : Nat) (g : String → Option GoErr) : List String → CloseStage
  | [] => ⟨[], false, []⟩
  | wid :: rest =>
    let s := closeWindows t g rest
    match g wid with
    | none => ⟨s.errs, s.force, Event.closeWin t wid :: s.events⟩
    | some e => ⟨GoErr.wrap "closing window" e :: s.errs, true, Event.closeWin t wid :: s.events⟩

/-- State of the kill loop of main.go lines 315-325. -/
structure KillStage where
  errs : List GoErr
  force : Bool
  events : List Event
deriving Repr

/-- Lines 315-325: send SIGKILL to every slot of the pids slice; a
"process already finished" outcome is not an error, any other failure is
logged and forces the wmctrl fallback. -/
def killPids (t : Nat) (sig : Int → SignalOutcome) : List Int → KillStage
  | [] => ⟨[], false, []⟩
  | pid :: rest =>
    let s := killPids t sig rest
    match sig pid with
    | SignalOutcome.ok => ⟨s.errs, s.force, Event.kill t pid :: s.events⟩
    | SignalOutcome.alreadyFinished => ⟨s.errs, s.force, Event.kill t pid :: s.events⟩
    | SignalOutcome.failed e =>
      ⟨GoErr.wrap ("killing window process pid " ++ toString pid) e :: s.errs, true,
       Event.kill t pid :: s.events⟩

/-- Result of the termination cascade (errors in logging order, events in
program order). -/
structure CascadeRes where
  errs : List GoErr
  events : List Event
deriving DecidableEq, Repr

/-- Lines 274-333: with `NoWindowWait` the process is waited for and no
window handling happens; otherwise wait for the window, and on success
resolve pids, close windows, kill every pid slot, and - only if some step
forced it - run the wmctrl close-by-name fallback.  On a wait failure the
error is logged, `tryXToolClose` becomes false, and since `tryWmctrl` is
never set on this path the fallback does not run. -/
def terminationCascade (cfg : Config) (env : TrialEnv) (t : Nat) : CascadeRes :=
  if cfg.NoWindowWait then ⟨[], []⟩
  else
    match env.waitForWindow (windowSpecOf cfg) with
    | Except.error e =>
      ⟨[GoErr.wrap "waiting for window appearance" e], [Event.waitWindow t]⟩
    | Except.ok wids =>
      let ps := resolvePids t env.pidForWindowID wids
      let cs := closeWindows t env.closeWindowID wids
      let ks := killPids t env.signal ps.pids
      let fb := ps.force || cs.force || ks.force
      let wmErrs : List GoErr :=
        if fb then
          match env.wmctrl cfg.WindowName with
          | none => []
          | some e => [GoErr.wrap "closing window with wmctrl" e]
        else []
      let wmEvs : List Event := if fb then [Event.wmctrlClose t] else []
      ⟨ps.errs ++ cs.errs ++ ks.errs ++ wmErrs,
       Event.waitWindow t :: (ps.events ++ cs.events ++ ks.events ++ wmEvs)⟩

/-- Lines 145-150: the prepare-script failure is logged, not propagated. -/
def prepErrsOf (cfg : Config) (env : TrialEnv) : List GoErr :=
  if cfg.PrepareScript ≠ "" then
    match env.prepareResult with
    | some e => [GoErr.wrap "running prepare script" e]
    | none => []
  else []

/-- Lines 343-351: a trace-parse failure is logged, not propagated. -/
def parseErrsOf (cfg : Config) (env : TrialEnv) : List GoErr :=
  if cfg.NoTrace then []
  else
    match env.parseResult with
    | Except.ok _ => []
    | Except.error e => [GoErr.wrap "cannot extract runtime data" e]

/-- Lines 354-359: the restore-script failure is logged, not propagated. -/
def restoreErrsOf (cfg : Config) (env : TrialEnv) : List GoErr :=
  if cfg.RestoreScript ≠ "" then
    match env.restoreResult with
    | some e => [GoErr.wrap "running restore script" e]
    | none => []
  else []

/-- The trial error list in logging order: prepare script, then the cascade
errors, then the trace-parse error, then the restore script. -/
def trialErrs (cfg : Config) (env : TrialEnv) (t : Nat) : List GoErr :=
  prepErrsOf cfg env ++ (terminationCascade cfg env t).errs
    ++ parseErrsOf cfg env ++ restoreErrsOf cfg env

/-- Lines 335-342: in traced mode the sentinel writer is closed and the
background reader completion channel is received from; untraced trials do
neither. -/
def teardownEvents (cfg : Config) (t : Nat) : List Event :=
  if cfg.NoTrace then [] else [Event.closeSentinel t, Event.awaitDone t]

/-- Events of the trial body after setup: the process start, the
termination cascade, and the trace-channel teardown. -/
def bodyEvents (cfg : Config) (env : TrialEnv) (t : Nat) : List Event :=
  Event.startProcess t :: ((terminationCascade cfg env t).events ++ teardownEvents cfg t)

/-- How a single trial ends: a completed `Execution`, a fatal-setup error
(`return err`, which aborts the whole run), or a panic (the nil-pointer
dereference of `slg.TotalTime` at line 371 when the trace parse failed). -/
inductive TrialRes where
  | done (ex : Execution)
  | fatal (e : GoErr)
  | panicked
deriving DecidableEq, Repr

/-- What one trial contributes: its result, the events it performed, and the
defer-stack entries it registered (most recently registered first). -/
structure TrialOutput where
  res : TrialRes
  events : List Event
  defers : List Event
deriving DecidableEq, Repr

/-- Lines 163-191: trace-channel setup.  Temp-dir, fifo, sentinel-open and
tracer-command failures all propagate as fatal errors; the deferred
`os.RemoveAll` is registered right after the directory is created and the
deferred `fw.Close` right after the sentinel writer is opened, so both run
at function exit on the later failure paths too. -/
def traceSetup (env : TrialEnv) (t : Nat) :
    Except (GoErr × List Event × List Event) (List Event × List Event) :=
  match env.tempDir with
  | Except.error e => Except.error (e, [], [])
  | Except.ok _ =>
    match env.mkfifo with
    | some e => Except.error (e, [Event.createTmpDir t], [Event.removeTmpDir t])
    | none =>
      match env.openFifo with
      | Except.error e => Except.error (e, [Event.createTmpDir t], [Event.removeTmpDir t])
      | Except.ok _ =>
        match env.traceCmd with
        | Except.error e =>
          Except.error (e, [Event.createTmpDir t],
            [Event.closeSentinel t, Event.removeTmpDir t])
        | Except.ok _ =>
          Except.ok ([Event.createTmpDir t], [Event.closeSentinel t, Event.removeTmpDir t])

/-- Lines 211-226: opening the stdout/stderr log files; a failure is fatal,
a success pushes a deferred close onto the defer stack. -/
def setupLogs (cfg : Config) (env : TrialEnv) (t : Nat) (evs defers : List Event) :
    Except (GoErr × List Event × List Event) (List Event × List Event) :=
  match (if cfg.ProgramStdoutLog ≠ "" then env.stdoutOpen else Except.ok ()) with
  | Except.error e => Except.error (e, evs, defers)
  | Except.ok _ =>
    let defers1 := if cfg.ProgramStdoutLog ≠ "" then Event.closeLogFile t :: defers else defers
    match (if cfg.ProgramStderrLog ≠ "" then env.stderrOpen else Except.ok ()) with
    | Except.error e => Except.error (e, evs, defers1)
    | Except.ok _ =>
      let defers2 := if cfg.ProgramStderrLog ≠ "" then Event.closeLogFile t :: defers1 else defers1
      Except.ok (evs, defers2)

/-- Lines 228-237: the namespace-discard option requires snap-run mode and
is a fatal configuration error otherwise; when allowed, the discard is
keyed on the first token of the original command (`x.Args.Cmd[0]`), and its
failure is fatal. -/
def setupDiscard (cfg : Config) (env : TrialEnv) (t : Nat) (evs defers : List Event) :
    Except (GoErr × List Event × List Event) (List Event × List Event) :=
  if cfg.DiscardSnapNs then
    if !cfg.RunThroughSnap then
      Except.error (GoErr.mk "cannot use --discard-snap-ns without --use-snap-run", evs, defers)
    else
      let evs1 := evs ++ [Event.discardNs t (cfg.Cmd.headD "")]
      match env.discardNsResult (cfg.Cmd.headD "") with
      | some e => Except.error (e, evs1, defers)
      | none => Except.ok (evs1, defers)
  else Except.ok (evs, defers)

/-- The fallible part of a trial before the process starts: trace-channel
setup (when tracing), log-file opening, the namespace-discard step and the
cache flush (line 265, fatal on failure). -/
def trialSetup (cfg : Config) (env : TrialEnv) (t : Nat) :
    Except (GoErr × List Event × List Event) (List Event × List Event) :=
  match (if cfg.NoTrace then Except.ok ([], []) else traceSetup env t) with
  | Except.error r => Except.error r
  | Except.ok (evs, defers) =>
    match setupLogs cfg env t evs defers with
    | Except.error r => Except.error r
    | Except.ok (evs1, defers1) =>
      match setupDiscard cfg env t evs1 defers1 with
      | Except.error r => Except.error r
      | Except.ok (evs2, defers2) =>
        match env.freeCaches with
        | some e => Except.error (e, evs2, defers2)
        | none => Except.ok (evs2, defers2)

/-- Lines 271-382 after the fallible setup: start the process (the
`cmd.Start` error is overwritten before it is ever inspected), run the
cascade, tear down the trace channel, run the restore script and build the
`Execution`.  In traced mode the run time is `slg.TotalTime`; when the
parse failed, `slg` is nil and the dereference panics before the record is
appended. -/
def trialMain (cfg : Config) (env : TrialEnv) (t : Nat) (evs defers : List Event) : TrialOutput :=
  let _startErr := env.startErr
  if cfg.NoTrace then
    ⟨TrialRes.done ⟨none, env.startupTime, env.startupTime, trialErrs cfg env t⟩,
     evs ++ (bodyEvents cfg env t ++ [Event.appendRun t]), defers⟩
  else
    match env.parseResult with
    | Except.ok s =>
      ⟨TrialRes.done ⟨some s, env.startupTime, s.TotalTime, trialErrs cfg env t⟩,
       evs ++ (bodyEvents cfg env t ++ [Event.appendRun t]), defers⟩
    | Except.error _ => ⟨TrialRes.panicked, evs ++ bodyEvents cfg env t, defers⟩

/-- One full trial (one iteration of the loop at lines 143-382). -/
def runTrial (cfg : Config) (env : TrialEnv) (t : Nat) : TrialOutput :=
  let _targetCmd := if cfg.RunThroughSnap then "snap" :: "run" :: cfg.Cmd else cfg.Cmd
  match trialSetup cfg env t with
  | Except.error (e, evs, defers) => ⟨TrialRes.fatal e, evs, defers⟩
  | Except.ok (evs, defers) => trialMain cfg env t evs defers

/-- How the whole run ends. -/
inductive RunOutcome where
  | ok (res : OutputResult)
  | fatal (e : GoErr)
  | panicked
deriving DecidableEq, Repr

/-- The observable behaviour of a run: its outcome, the event segment of
each trial in trial order, and the events of the defer flush executed when
the function exits. -/
structure RunResult where
  outcome : RunOutcome
  trialEvents : List (List Event)
  deferFlush : List Event
deriving DecidableEq, Repr

/-- The trial loop (lines 141-382): `rem` trials remain, `i` is the current
trial index, `runs` the accumulated executions, `tevs` the accumulated
event segments and `defers` the function-wide defer stack (top first).
A fatal trial or a panic stops the loop and flushes the defer stack. -/
def runLoop (cfg : Config) (envs : Nat → TrialEnv) :
    Nat → Nat → List Execution → List (List Event) → List Event → RunResult
  | 0, _, runs, tevs, defers => ⟨RunOutcome.ok ⟨runs⟩, tevs, defers⟩
  | Nat.succ rem, i, runs, tevs, defers =>
    let out := runTrial cfg (envs i) i
    match out.res with
    | TrialRes.done ex =>
      runLoop cfg envs rem (i + 1) (runs ++ [ex]) (tevs ++ [out.events]) (out.defers ++ defers)
    | TrialRes.fatal e => ⟨RunOutcome.fatal e, tevs ++ [out.events], out.defers ++ defers⟩
    | TrialRes.panicked => ⟨RunOutcome.panicked, tevs ++ [out.events], out.defers ++ defers⟩

/-- `cmdRun.Execute` (lines 128-389): open the output file if requested
(fatal on failure, before any trial), then run `1 + AdditionalIterations`
trials. -/
def Execute (cfg : Config) (outputOpen : Except GoErr Unit) (envs : Nat → TrialEnv) : RunResult :=
  if cfg.OutputFile ≠ "" then
    match outputOpen with
    | Except.error e => ⟨RunOutcome.fatal e, [], []⟩
    | Except.ok _ => runLoop cfg envs (1 + cfg.AdditionalIterations) 0 [] [] []
  else runLoop cfg envs (1 + cfg.AdditionalIterations) 0 [] [] []

/-- The full chronological event list of a run: all trial segments in
order, then the defer flush at function exit. -/
def eventTrace (r : RunResult) : List Event :=
  r.trialEvents.flatten ++ r.deferFlush

/-- `a` occurs at a strictly earlier position than some occurrence of `b`. -/
def eventBefore (a b : Event) (l : List Event) : Prop :=
  ∃ i j : Nat, i < j ∧ l[i]? = some a ∧ l[j]? = some b

/-- Recognizes the deferred-directory-removal event. -/
def isRemove : Event → Bool
  | Event.removeTmpDir _ => true
  | _ => false

/-- Recognizes events that only a deferred cleanup can perform. -/
def isDeferish : Event → Bool
  | Event.removeTmpDir _ => true
  | Event.closeSentinel _ => true
  | Event.closeLogFile _ => true
  | _ => false

/-- The executions the loop would append starting at trial `i` with `rem`
trials remaining, assuming every one of those trials completes. -/
def execsFrom (cfg : Config) (envs : Nat → TrialEnv) : Nat → Nat → List Execution
  | _, 0 => []
  | i, Nat.succ rem =>
    match (runTrial cfg (envs i) i).res with
    | TrialRes.done ex => ex :: execsFrom cfg envs (i + 1) rem
    | _ => []

/-- The per-trial event segments from trial `i` on. -/
def segsFrom (cfg : Config) (envs : Nat → TrialEnv) : Nat → Nat → List (List Event)
  | _, 0 => []
  | i, Nat.succ rem => (runTrial cfg (envs i) i).events :: segsFrom cfg envs (i + 1) rem

/-- The defer-stack prefix pushed by trials `i` onward (top of stack first,
so later trials come first). -/
def defersFrom (cfg : Config) (envs : Nat → TrialEnv) : Nat → Nat → List Event
  | _, 0 => []
  | i, Nat.succ rem => defersFrom cfg envs (i + 1) rem ++ (runTrial cfg (envs i) i).defers

/-- A traced single-trial configuration for the command `["sample-app"]`
with all optional features off. -/
def cfgTraced : Config where
  ShowErrors := false
  AdditionalIterations := 0
  WindowName := ""
  PrepareScript := ""
  PrepareScriptArgs := []
  RestoreScript := ""
  RestoreScriptArgs := []
  WindowClass := ""
  NoTrace := false
  RunThroughSnap := false
  DiscardSnapNs := false
  ProgramStdoutLog := ""
  ProgramStderrLog := ""
  JSONOutput := false
  OutputFile := ""
  NoWindowWait := false
  Cmd := ["sample-app"]

/-- The same configuration untraced. -/
def cfgUntraced : Config := { cfgTraced with NoTrace := true }

/-- The traced configuration with one additional iteration (two trials). -/
def cfgTwoTrials : Config := { cfgTraced with AdditionalIterations := 1 }

/-- The untraced configuration asking for the namespace discard without
snap-run mode. -/
def cfgDiscard : Config := { cfgUntraced with DiscardSnapNs := true }

/-- An environment in which every collaborator succeeds: one window "w1"
owned by pid 100, a parse result with total time 42, display latency 5. -/
def okEnv : TrialEnv where
  prepareResult := none
  tempDir := Except.ok ()
  mkfifo := none
  openFifo := Except.ok ()
  parseResult := Except.ok ⟨42⟩
  traceCmd := Except.ok ()
  stdoutOpen := Except.ok ()
  stderrOpen := Except.ok ()
  discardNsResult := fun _ => none
  freeCaches := none
  startErr := none
  waitForWindow := fun _ => Except.ok ["w1"]
  pidForWindowID := fun _ => Except.ok 100
  closeWindowID := fun _ => none
  signal := fun _ => SignalOutcome.ok
  wmctrl := fun _ => none
  restoreResult := none
  startupTime := 5

/-- `okEnv` but the trace parser fails. -/
def envParseFail : TrialEnv := { okEnv with parseResult := Except.error (GoErr.mk "parse failure") }

/-- `okEnv` but the tracer-wrapped command creation fails. -/
def envTraceCmdFail : TrialEnv := { okEnv with traceCmd := Except.error (GoErr.mk "exec strace") }

/-- `okEnv` but no window ever appears: the window wait times out. -/
def envWaitFail : TrialEnv :=
  { okEnv with waitForWindow := fun _ => Except.error (GoErr.mk "window wait timeout") }

/-- `okEnv` with three windows, where only the first resolves to a pid. -/
def envPidFail : TrialEnv :=
  { okEnv with
    waitForWindow := fun _ => Except.ok ["w1", "w2", "w3"],
    pidForWindowID := fun s => if s = "w1" then Except.ok 100 else Except.error (GoErr.mk "no pid") }

/-- All setup steps that run before the namespace-discard check succeed in
this environment. -/
def setupPreDiscardOk (cfg : Config) (env : TrialEnv) : Prop :=
  (cfg.NoTrace = false → env.tempDir = Except.ok () ∧ env.mkfifo = none ∧
     env.openFifo = Except.ok () ∧ env.traceCmd = Except.ok ()) ∧
  (cfg.ProgramStdoutLog ≠ "" → env.stdoutOpen = Except.ok ()) ∧
  (cfg.ProgramStderrLog ≠ "" → env.stderrOpen = Except.ok ())

/-- The events performed by the setup stages before the discard check. -/
def preEvents (cfg : Config) (t : Nat) : List Event :=
  if cfg.NoTrace then [] else [Event.createTmpDir t]

/-- The defer stack built by the setup stages before the discard check. -/
def preDefers (cfg : Config) (t : Nat) : List Event :=
  (if cfg.ProgramStderrLog ≠ "" then [Event.closeLogFile t] else []) ++
  ((if cfg.ProgramStdoutLog ≠ "" then [Event.closeLogFile t] else []) ++
   (if cfg.NoTrace then [] else [Event.closeSentinel t, Event.removeTmpDir t]))

theorem before_append {a b : Event} {xs ys : List Event} (ha : a ∈ xs) (hb : b ∈ ys) :
    eventBefore a b (xs ++ ys) := by
  obtain ⟨i, hi⟩ := List.mem_iff_getElem?.mp ha
  obtain ⟨j, hj⟩ := List.mem_iff_getElem?.mp hb
  have hilt : i < xs.length := (List.getElem?_eq_some.mp hi).1
  refine ⟨i, xs.length + j, by omega, ?_, ?_⟩
  · rw [List.getElem?_append_left hilt]; exact hi
  · rw [List.getElem?_append_right (by omega)]
    have hΔ : xs.length + j - xs.length = j := by omega
    rw [hΔ]; exact hj

theorem dropWhile_head_false (p : Char → Bool) :
    ∀ (l : List Char) (c : Char) (cs : List Char), List.dropWhile p l = c :: cs → p c = false := by
  intro l
  induction l with
  | nil => intro c cs h; simp [List.dropWhile] at h
  | cons a as ih =>
    intro c cs h
    rw [List.dropWhile_cons] at h
    by_cases hpa : p a = true
    · rw [if_pos hpa] at h; exact ih c cs h
    · rw [if_neg hpa] at h
      injection h with h1 _
      subst h1
      simpa using hpa

theorem filepathBase_ne_empty (s : String) : filepathBase s ≠ "" := by
  unfold filepathBase
  split
  · decide
  · split
    · decide
    · rename_i c cs hdrop
      have hc : (c == '/') = false := dropWhile_head_false _ _ c cs hdrop
      rw [List.takeWhile_cons]
      have hq : ((fun x => !(x == '/')) c = true) := by simp [hc]
      rw [if_pos hq]
      intro h
      have hdata := congrArg String.data h
      simp at hdata

theorem resolvePids_events_shape (t : Nat) (f : String → Except GoErr Int) :
    ∀ ws, ∀ e ∈ (resolvePids t f ws).events, ∃ w, e = Event.pidQuery t w := by
  intro ws
  induction ws with
  | nil => intro e he; simp [resolvePids] at he
  | cons w rest ih =>
    intro e he
    unfold resolvePids at he
    cases hf : f w with
    | ok pid =>
      rw [hf] at he
      simp only [List.mem_cons] at he
      rcases he with rfl | h
      · exact ⟨w, rfl⟩
      · exact ih e h
    | error err =>
      rw [hf] at he
      simp only [List.mem_singleton] at he
      exact ⟨w, he⟩

theorem closeWindows_events_shape (t : Nat) (g : String → Option GoErr) :
    ∀ ws, ∀ e ∈ (closeWindows t g ws).events, ∃ w, e = Event.closeWin t w := by
  intro ws
  induction ws with
  | nil => intro e he; simp [closeWindows] at he
  | cons w rest ih =>
    intro e he
    unfold closeWindows at he
    cases hg : g w with
    | none =>
      rw [hg] at he
      simp only [List.mem_cons] at he
      rcases he with rfl | h
      · exact ⟨w, rfl⟩
      · exact ih e h
    | some err =>
      rw [hg] at he
      simp only [List.mem_cons] at he
      rcases he with rfl | h
      · exact ⟨w, rfl⟩
      · exact ih e h

theorem killPids_events_eq (t : Nat) (sig : Int → SignalOutcome) :
    ∀ pids, (killPids t sig pids).events = pids.map (Event.kill t) := by
  intro pids
  induction pids with
  | nil => rfl
  | cons p rest ih =>
    unfold killPids
    cases hs : sig p <;> simp [ih]

theorem killPids_events_shape (t : Nat) (sig : Int → SignalOutcome) :
    ∀ pids, ∀ e ∈ (killPids t sig pids).events, ∃ p, e = Event.kill t p := by
  intro pids e he
  rw [killPids_events_eq] at he
  simp only [List.mem_map] at he
  obtain ⟨p, _, rfl⟩ := he
  exact ⟨p, rfl⟩

theorem cascade_events_not_remove (cfg : Config) (env : TrialEnv) (t : Nat) :
    ∀ e ∈ (terminationCascade cfg env t).events, isRemove e = false := by
  intro e he
  simp only [terminationCascade] at he
  split at he
  · simp at he
  · split at he
    · simp only [List.mem_singleton] at he; subst he; rfl
    · rename_i wids heq
      rw [List.mem_cons] at he
      rcases he with rfl | h
      · rfl
      rw [List.mem_append] at h
      rcases h with h | h
      · rw [List.mem_append] at h
        rcases h with h | h
        · rw [List.mem_append] at h
          rcases h with h | h
          · obtain ⟨w, rfl⟩ := resolvePids_events_shape t env.pidForWindowID wids e h; rfl
          · obtain ⟨w, rfl⟩ := closeWindows_events_shape t env.closeWindowID wids e h; rfl
        · obtain ⟨p, rfl⟩ := killPids_events_shape t env.signal _ e h; rfl
      · split at h
        · simp only [List.mem_singleton] at h; subst h; rfl
        · simp at h

theorem teardownEvents_shape (cfg : Config) (t : Nat) :
    ∀ e ∈ teardownEvents cfg t, e = Event.closeSentinel t ∨ e = Event.awaitDone t := by
  intro e he
  unfold teardownEvents at he
  split at he
  · simp at he
  · simp only [List.mem_cons, List.mem_singleton, List.not_mem_nil] at he
    tauto

theorem bodyEvents_not_remove (cfg : Config) (env : TrialEnv) (t : Nat) :
    ∀ e ∈ bodyEvents cfg env t, isRemove e = false := by
  intro e he
  simp only [bodyEvents, List.mem_cons, List.mem_append] at he
  rcases he with rfl | h | h
  · rfl
  · exact cascade_events_not_remove cfg env t e h
  · rcases teardownEvents_shape cfg t e h with rfl | rfl <;> rfl

theorem runTrial_eq_fatal (cfg : Config) (env : TrialEnv) (t : Nat) (e : GoErr)
    (evs ds : List Event) (h : trialSetup cfg env t = Except.error (e, evs, ds)) :
    runTrial cfg env t = ⟨TrialRes.fatal e, evs, ds⟩ := by
  simp [runTrial, h]

theorem runTrial_eq_main (cfg : Config) (env : TrialEnv) (t : Nat)
    (evs ds : List Event) (h : trialSetup cfg env t = Except.ok (evs, ds)) :
    runTrial cfg env t = trialMain cfg env t evs ds := by
  simp [runTrial, h]

theorem trialMain_eq_untraced (cfg : Config) (env : TrialEnv) (t : Nat)
    (evs ds : List Event) (h : cfg.NoTrace = true) :
    trialMain cfg env t evs ds =
      ⟨TrialRes.done ⟨none, env.startupTime, env.startupTime, trialErrs cfg env t⟩,
       evs ++ (bodyEvents cfg env t ++ [Event.appendRun t]), ds⟩ := by
  simp [trialMain, h]

theorem trialMain_eq_traced_ok (cfg : Config) (env : TrialEnv) (t : Nat)
    (evs ds : List Event) (s : ExecveTiming) (h : cfg.NoTrace = false)
    (hp : env.parseResult = Except.ok s) :
    trialMain cfg env t evs ds =
      ⟨TrialRes.done ⟨some s, env.startupTime, s.TotalTime, trialErrs cfg env t⟩,
       evs ++ (bodyEvents cfg env t ++ [Event.appendRun t]), ds⟩ := by
  simp [trialMain, h, hp]

theorem trialMain_eq_traced_err (cfg : Config) (env : TrialEnv) (t : Nat)
    (evs ds : List Event) (e : GoErr) (h : cfg.NoTrace = false)
    (hp : env.parseResult = Except.error e) :
    trialMain cfg env t evs ds = ⟨TrialRes.panicked, evs ++ bodyEvents cfg env t, ds⟩ := by
  simp [trialMain, h, hp]

theorem traceSetup_shape (env : TrialEnv) (t : Nat) :
    (∀ e evs ds, traceSetup env t = Except.error (e, evs, ds) →
        (evs = [] ∨ evs = [Event.createTmpDir t]) ∧ (∀ x ∈ ds, isDeferish x = true)) ∧
    (∀ evs ds, traceSetup env t = Except.ok (evs, ds) →
        evs = [Event.createTmpDir t] ∧ ds = [Event.closeSentinel t, Event.removeTmpDir t]) := by
  unfold traceSetup
  constructor
  · intro e evs ds h
    repeat' split at h
    all_goals first
      | (injection h with h
         injection h with h1 h
         injection h with h2 h3
         subst h2; subst h3
         simp [isDeferish])
      | injection h
  · intro evs ds h
    repeat' split at h
    all_goals first
      | (injection h with h
         injection h with h1 h2
         subst h1; subst h2
         exact ⟨rfl, rfl⟩)
      | injection h

theorem setupLogs_shape (cfg : Config) (env : TrialEnv) (t : Nat) (evs ds : List Event) :
    (∀ e evs' ds', setupLogs cfg env t evs ds = Except.error (e, evs', ds') →
        evs' = evs ∧ (ds' = ds ∨ ds' = Event.closeLogFile t :: ds)) ∧
    (∀ evs' ds', setupLogs cfg env t evs ds = Except.ok (evs', ds') →
        evs' = evs ∧
        ds' = (if cfg.ProgramStderrLog ≠ "" then [Event.closeLogFile t] else []) ++
              ((if cfg.ProgramStdoutLog ≠ "" then [Event.closeLogFile t] else []) ++ ds)) := by
  unfold setupLogs
  constructor
  · intro e evs' ds' h
    repeat' split at h
    all_goals first
      | (injection h with h
         injection h with h1 h
         injection h with h2 h3
         subst h2; subst h3
         simp)
      | injection h
  · intro evs' ds' h
    repeat' split at h
    all_goals first
      | (injection h with h
         injection h with h1 h2
         subst h1; subst h2
         simp_all)
      | injection h

theorem setupDiscard_shape (cfg : Config) (env : TrialEnv) (t : Nat) (evs ds : List Event) :
    (∀ e evs' ds', setupDiscard cfg env t evs ds = Except.error (e, evs', ds') →
        (evs' = evs ∨ evs' = evs ++ [Event.discardNs t (cfg.Cmd.headD "")]) ∧ ds' = ds) ∧
    (∀ evs' ds', setupDiscard cfg env t evs ds = Except.ok (evs', ds') →
        (evs' = evs ∨ evs' = evs ++ [Event.discardNs t (cfg.Cmd.headD "")]) ∧ ds' = ds) := by
  unfold setupDiscard
  constructor
  · intro e evs' ds' h
    repeat' split at h
    all_goals simp_all
  · intro evs' ds' h
    repeat' split at h
    all_goals simp_all

theorem trialSetup_shape (cfg : Config) (env : TrialEnv) (t : Nat) :
    (∀ e evs ds, trialSetup cfg env t = Except.error (e, evs, ds) →
       (∀ x ∈ evs, x = Event.createTmpDir t ∨ x = Event.discardNs t (cfg.Cmd.headD "")) ∧
       (∀ x ∈ ds, isDeferish x = true)) ∧
    (∀ evs ds, trialSetup cfg env t = Except.ok (evs, ds) →
       (∀ x ∈ evs, x = Event.createTmpDir t ∨ x = Event.discardNs t (cfg.Cmd.headD "")) ∧
       (∀ x ∈ ds, isDeferish x = true) ∧
       (cfg.NoTrace = false → Event.removeTmpDir t ∈ ds)) := by
  have hstage0 :
      ∀ evs0 ds0, (if cfg.NoTrace then (Except.ok ([], []) :
          Except (GoErr × List Event × List Event) (List Event × List Event))
        else traceSetup env t) = Except.ok (evs0, ds0) →
        (∀ x ∈ evs0, x = Event.createTmpDir t) ∧ (∀ x ∈ ds0, isDeferish x = true) ∧
        (cfg.NoTrace = false → Event.removeTmpDir t ∈ ds0) := by
    intro evs0 ds0 h0
    by_cases hnt : cfg.NoTrace = true
    · rw [if_pos hnt] at h0
      injection h0 with h0
      injection h0 with h1 h2
      subst h1; subst h2
      refine ⟨by simp, by simp, ?_⟩
      intro hfalse; rw [hnt] at hfalse; cases hfalse
    · rw [if_neg hnt] at h0
      obtain ⟨hevs, hds⟩ := (traceSetup_shape env t).2 evs0 ds0 h0
      subst hevs; subst hds
      refine ⟨by simp, ?_, ?_⟩
      · intro x hx
        simp only [List.mem_cons, List.not_mem_nil, or_false] at hx
        rcases hx with rfl | rfl <;> rfl
      · intro _; simp
  have hstage0e :
      ∀ e evs0 ds0, (if cfg.NoTrace then (Except.ok ([], []) :
          Except (GoErr × List Event × List Event) (List Event × List Event))
        else traceSetup env t) = Except.error (e, evs0, ds0) →
        (∀ x ∈ evs0, x = Event.createTmpDir t) ∧ (∀ x ∈ ds0, isDeferish x = true) := by
    intro e evs0 ds0 h0
    by_cases hnt : cfg.NoTrace = true
    · rw [if_pos hnt] at h0; cases h0
    · rw [if_neg hnt] at h0
      obtain ⟨hevs, hds⟩ := (traceSetup_shape env t).1 e evs0 ds0 h0
      constructor
      · intro x hx
        rcases hevs with rfl | rfl
        · simp at hx
        · simp only [List.mem_singleton] at hx; exact hx
      · exact hds
  constructor
  · intro e evs ds h
    unfold trialSetup at h
    split at h
    · rename_i r0 heq0
      injection h with h
      subst h
      obtain ⟨he, hd⟩ := hstage0e _ _ _ heq0
      exact ⟨fun x hx => Or.inl (he x hx), hd⟩
    · rename_i evs0 ds0 heq0
      obtain ⟨hevs0, hds0, _⟩ := hstage0 _ _ heq0
      split at h
      · rename_i r1 heq1
        injection h with h
        subst h
        obtain ⟨hevs1, hds1⟩ := (setupLogs_shape cfg env t _ _).1 _ _ _ heq1
        constructor
        · intro x hx
          rw [hevs1] at hx
          exact Or.inl (hevs0 x hx)
        · intro x hx
          rcases hds1 with rfl | rfl
          · exact hds0 x hx
          · rcases List.mem_cons.mp hx with rfl | hx2
            · rfl
            · exact hds0 x hx2
      · rename_i evs1 ds1 heq1
        obtain ⟨hevs1, hds1⟩ := (setupLogs_shape cfg env t _ _).2 _ _ heq1
        have hevs1f : ∀ x ∈ evs1, x = Event.createTmpDir t := by
          intro x hx
          rw [hevs1] at hx
          exact hevs0 x hx
        have hds1f : ∀ x ∈ ds1, isDeferish x = true := by
          rw [hds1]
          intro x hx
          rw [List.mem_append] at hx
          rcases hx with hx | hx
          · split at hx
            · simp only [List.mem_singleton] at hx; subst hx; rfl
            · simp at hx
          · rw [List.mem_append] at hx
            rcases hx with hx | hx
            · split at hx
              · simp only [List.mem_singleton] at hx; subst hx; rfl
              · simp at hx
            · exact hds0 x hx
        have hsub1 : ∀ x ∈ ds0, x ∈ ds1 := by
          rw [hds1]
          intro x hx
          rw [List.mem_append, List.mem_append]
          exact Or.inr (Or.inr hx)
        split at h
        · rename_i r2 heq2
          injection h with h
          subst h
          obtain ⟨hevs2, hds2⟩ := (setupDiscard_shape cfg env t _ _).1 _ _ _ heq2
          constructor
          · intro x hx
            rcases hevs2 with rfl | rfl
            · exact Or.inl (hevs1f x hx)
            · rw [List.mem_append] at hx
              rcases hx with hx | hx
              · exact Or.inl (hevs1f x hx)
              · simp only [List.mem_singleton] at hx; exact Or.inr hx
          · intro x hx
            rw [hds2] at hx
            exact hds1f x hx
        · rename_i evs2 ds2 heq2
          obtain ⟨hevs2, hds2⟩ := (setupDiscard_shape cfg env t _ _).2 _ _ heq2
          split at h
          · rename_i e3 heq3
            injection h with h
            injection h with h1 h
            injection h with h2 h3
            subst h1; subst h2; subst h3
            constructor
            · intro x hx
              rcases hevs2 with rfl | rfl
              · exact Or.inl (hevs1f x hx)
              · rw [List.mem_append] at hx
                rcases hx with hx | hx
                · exact Or.inl (hevs1f x hx)
                · simp only [List.mem_singleton] at hx; exact Or.inr hx
            · intro x hx
              rw [hds2] at hx
              exact hds1f x hx
          · simp at h
  · intro evs ds h
    unfold trialSetup at h
    split at h
    · simp at h
    · rename_i evs0 ds0 heq0
      obtain ⟨hevs0, hds0, hrm0⟩ := hstage0 _ _ heq0
      split at h
      · simp at h
      · rename_i evs1 ds1 heq1
        obtain ⟨hevs1, hds1⟩ := (setupLogs_shape cfg env t _ _).2 _ _ heq1
        have hevs1f : ∀ x ∈ evs1, x = Event.createTmpDir t := by
          intro x hx
          rw [hevs1] at hx
          exact hevs0 x hx
        have hds1f : ∀ x ∈ ds1, isDeferish x = true := by
          rw [hds1]
          intro x hx
          rw [List.mem_append] at hx
          rcases hx with hx | hx
          · split at hx
            · simp only [List.mem_singleton] at hx; subst hx; rfl
            · simp at hx
          · rw [List.mem_append] at hx
            rcases hx with hx | hx
            · split at hx
              · simp only [List.mem_singleton] at hx; subst hx; rfl
              · simp at hx
            · exact hds0 x hx
        have hsub1 : ∀ x ∈ ds0, x ∈ ds1 := by
          rw [hds1]
          intro x hx
          rw [List.mem_append, List.mem_append]
          exact Or.inr (Or.inr hx)
        split at h
        · simp at h
        · rename_i evs2 ds2 heq2
          obtain ⟨hevs2, hds2⟩ := (setupDiscard_shape cfg env t _ _).2 _ _ heq2
          split at h
          · simp at h
          · injection h with h
            injection h with h1 h2
            subst h1; subst h2
            refine ⟨?_, ?_, ?_⟩
            · intro x hx
              rcases hevs2 with rfl | rfl
              · exact Or.inl (hevs1f x hx)
              · rw [List.mem_append] at hx
                rcases hx with hx | hx
                · exact Or.inl (hevs1f x hx)
                · simp only [List.mem_singleton] at hx; exact Or.inr hx
            · intro x hx
              rw [hds2] at hx
              exact hds1f x hx
            · intro hnt
              rw [hds2]
              exact hsub1 _ (hrm0 hnt)

theorem runTrial_events_not_remove (cfg : Config) (env : TrialEnv) (t : Nat) :
    ∀ e ∈ (runTrial cfg env t).events, isRemove e = false := by
  intro e he
  rcases hts : trialSetup cfg env t with ⟨e0, evs, ds⟩ | ⟨evs, ds⟩
  · rw [runTrial_eq_fatal cfg env t e0 evs ds hts] at he
    dsimp only at he
    rcases ((trialSetup_shape cfg env t).1 e0 evs ds hts).1 e he with rfl | rfl <;> rfl
  · rw [runTrial_eq_main cfg env t evs ds hts] at he
    have hevs : ∀ x ∈ evs, isRemove x = false := by
      intro x hx
      rcases ((trialSetup_shape cfg env t).2 evs ds hts).1 x hx with rfl | rfl <;> rfl
    cases hnt : cfg.NoTrace with
    | true =>
      rw [trialMain_eq_untraced cfg env t evs ds hnt] at he
      dsimp only at he
      rw [List.mem_append] at he
      rcases he with he | he
      · exact hevs e he
      rw [List.mem_append] at he
      rcases he with he | he
      · exact bodyEvents_not_remove cfg env t e he
      · simp only [List.mem_singleton] at he; subst he; rfl
    | false =>
      cases hp : env.parseResult with
      | ok s =>
        rw [trialMain_eq_traced_ok cfg env t evs ds s hnt hp] at he
        dsimp only at he
        rw [List.mem_append] at he
        rcases he with he | he
        · exact hevs e he
        rw [List.mem_append] at he
        rcases he with he | he
        · exact bodyEvents_not_remove cfg env t e he
        · simp only [List.mem_singleton] at he; subst he; rfl
      | error e1 =>
        rw [trialMain_eq_traced_err cfg env t evs ds e1 hnt hp] at he
        dsimp only at he
        rw [List.mem_append] at he
        rcases he with he | he
        · exact hevs e he
        · exact bodyEvents_not_remove cfg env t e he

theorem runTrial_defers_deferish (cfg : Config) (env : TrialEnv) (t : Nat) :
    ∀ x ∈ (runTrial cfg env t).defers, isDeferish x = true := by
  intro x hx
  rcases hts : trialSetup cfg env t with ⟨e0, evs, ds⟩ | ⟨evs, ds⟩
  · rw [runTrial_eq_fatal cfg env t e0 evs ds hts] at hx
    dsimp only at hx
    exact ((trialSetup_shape cfg env t).1 e0 evs ds hts).2 x hx
  · rw [runTrial_eq_main cfg env t evs ds hts] at hx
    have hds := ((trialSetup_shape cfg env t).2 evs ds hts).2.1
    cases hnt : cfg.NoTrace with
    | true =>
      rw [trialMain_eq_untraced cfg env t evs ds hnt] at hx
      dsimp only at hx
      exact hds x hx
    | false =>
      cases hp : env.parseResult with
      | ok s =>
        rw [trialMain_eq_traced_ok cfg env t evs ds s hnt hp] at hx
        dsimp only at hx
        exact hds x hx
      | error e1 =>
        rw [trialMain_eq_traced_err cfg env t evs ds e1 hnt hp] at hx
        dsimp only at hx
        exact hds x hx

theorem runTrial_done_cases (cfg : Config) (env : TrialEnv) (t : Nat) (ex : Execution)
    (h : (runTrial cfg env t).res = TrialRes.done ex) :
    ∃ evs ds, trialSetup cfg env t = Except.ok (evs, ds) ∧
      (runTrial cfg env t).defers = ds ∧
      (runTrial cfg env t).events = evs ++ (bodyEvents cfg env t ++ [Event.appendRun t]) ∧
      ((cfg.NoTrace = true ∧
          ex = ⟨none, env.startupTime, env.startupTime, trialErrs cfg env t⟩) ∨
       (∃ s, cfg.NoTrace = false ∧ env.parseResult = Except.ok s ∧
          ex = ⟨some s, env.startupTime, s.TotalTime, trialErrs cfg env t⟩)) := by
  rcases hts : trialSetup cfg env t with ⟨e0, evs, ds⟩ | ⟨evs, ds⟩
  · rw [runTrial_eq_fatal cfg env t e0 evs ds hts] at h
    cases h
  · refine ⟨evs, ds, rfl, ?_⟩
    rw [runTrial_eq_main cfg env t evs ds hts] at h ⊢
    cases hnt : cfg.NoTrace with
    | true =>
      rw [trialMain_eq_untraced cfg env t evs ds hnt] at h ⊢
      dsimp only at h ⊢
      injection h with h
      exact ⟨rfl, rfl, Or.inl ⟨rfl, h.symm⟩⟩
    | false =>
      cases hp : env.parseResult with
      | ok s =>
        rw [trialMain_eq_traced_ok cfg env t evs ds s hnt hp] at h ⊢
        dsimp only at h ⊢
        injection h with h
        exact ⟨rfl, rfl, Or.inr ⟨s, rfl, rfl, h.symm⟩⟩
      | error e1 =>
        rw [trialMain_eq_traced_err cfg env t evs ds e1 hnt hp] at h
        cases h

theorem runTrial_done_await (cfg : Config) (env : TrialEnv) (t : Nat) (ex : Execution)
    (hnt : cfg.NoTrace = false) (h : (runTrial cfg env t).res = TrialRes.done ex) :
    Event.awaitDone t ∈ (runTrial cfg env t).events := by
  obtain ⟨evs, ds, hts, _, hevents, _⟩ := runTrial_done_cases cfg env t ex h
  rw [hevents]
  rw [List.mem_append]
  right
  rw [List.mem_append]
  left
  simp only [bodyEvents, List.mem_cons, List.mem_append]
  right; right
  unfold teardownEvents
  rw [hnt]
  simp

theorem runTrial_done_defers_remove (cfg : Config) (env : TrialEnv) (t : Nat) (ex : Execution)
    (hnt : cfg.NoTrace = false) (h : (runTrial cfg env t).res = TrialRes.done ex) :
    Event.removeTmpDir t ∈ (runTrial cfg env t).defers := by
  obtain ⟨evs, ds, hts, hdefers, _, _⟩ := runTrial_done_cases cfg env t ex h
  rw [hdefers]
  exact ((trialSetup_shape cfg env t).2 evs ds hts).2.2 hnt

theorem runLoop_all_done (cfg : Config) (envs : Nat → TrialEnv) :
    ∀ rem i runs tevs defers r,
      (runLoop cfg envs rem i runs tevs defers).outcome = RunOutcome.ok r →
      ∀ j, j < rem → ∃ ex, (runTrial cfg (envs (i + j)) (i + j)).res = TrialRes.done ex := by
  intro rem
  induction rem with
  | zero =>
    intro i runs tevs defers r _ j hj
    exact absurd hj (Nat.not_lt_zero j)
  | succ rem ih =>
    intro i runs tevs defers r h j hj
    simp only [runLoop] at h
    rcases hres : (runTrial cfg (envs i) i).res with ex | e | _
    · rw [hres] at h
      dsimp only at h
      rcases j with _ | j'
      · rw [Nat.add_zero]
        exact ⟨ex, hres⟩
      · have heq : i + (j' + 1) = (i + 1) + j' := by omega
        rw [heq]
        exact ih (i + 1) _ _ _ r h j' (by omega)
    · rw [hres] at h
      cases h
    · rw [hres] at h
      cases h

theorem execsFrom_succ (cfg : Config) (envs : Nat → TrialEnv) (i rem : Nat) :
    execsFrom cfg envs i (rem + 1) =
      (match (runTrial cfg (envs i) i).res with
       | TrialRes.done ex => ex :: execsFrom cfg envs (i + 1) rem
       | _ => []) := rfl

theorem segsFrom_succ (cfg : Config) (envs : Nat → TrialEnv) (i rem : Nat) :
    segsFrom cfg envs i (rem + 1) =
      (runTrial cfg (envs i) i).events :: segsFrom cfg envs (i + 1) rem := rfl

theorem defersFrom_succ (cfg : Config) (envs : Nat → TrialEnv) (i rem : Nat) :
    defersFrom cfg envs i (rem + 1) =
      defersFrom cfg envs (i + 1) rem ++ (runTrial cfg (envs i) i).defers := rfl

theorem runLoop_eq_of_all_done (cfg : Config) (envs : Nat → TrialEnv) :
    ∀ rem i runs tevs defers,
      (∀ j, j < rem → ∃ ex, (runTrial cfg (envs (i + j)) (i + j)).res = TrialRes.done ex) →
      runLoop cfg envs rem i runs tevs defers =
        ⟨RunOutcome.ok ⟨runs ++ execsFrom cfg envs i rem⟩,
         tevs ++ segsFrom cfg envs i rem,
         defersFrom cfg envs i rem ++ defers⟩ := by
  intro rem
  induction rem with
  | zero =>
    intro i runs tevs defers _
    simp [runLoop, execsFrom, segsFrom, defersFrom]
  | succ rem ih =>
    intro i runs tevs defers h
    obtain ⟨ex, hex⟩ := h 0 (Nat.succ_pos rem)
    rw [Nat.add_zero] at hex
    have hrest : ∀ j, j < rem →
        ∃ ex, (runTrial cfg (envs ((i + 1) + j)) ((i + 1) + j)).res = TrialRes.done ex := by
      intro j hj
      have heq : (i + 1) + j = i + (j + 1) := by omega
      rw [heq]
      exact h (j + 1) (by omega)
    simp only [runLoop]
    rw [execsFrom_succ, segsFrom_succ, defersFrom_succ, hex]
    dsimp only
    rw [ih (i + 1) (runs ++ [ex]) (tevs ++ [(runTrial cfg (envs i) i).events])
      ((runTrial cfg (envs i) i).defers ++ defers) hrest]
    simp [List.append_assoc]

theorem execsFrom_length (cfg : Config) (envs : Nat → TrialEnv) :
    ∀ rem i,
      (∀ j, j < rem → ∃ ex, (runTrial cfg (envs (i + j)) (i + j)).res = TrialRes.done ex) →
      (execsFrom cfg envs i rem).length = rem := by
  intro rem
  induction rem with
  | zero => intro i _; rfl
  | succ rem ih =>
    intro i h
    obtain ⟨ex, hex⟩ := h 0 (Nat.succ_pos rem)
    rw [Nat.add_zero] at hex
    rw [execsFrom_succ, hex]
    dsimp only
    rw [List.length_cons, ih (i + 1)]
    intro j hj
    have heq : (i + 1) + j = i + (j + 1) := by omega
    rw [heq]
    exact h (j + 1) (by omega)

theorem execsFrom_get (cfg : Config) (envs : Nat → TrialEnv) :
    ∀ rem i,
      (∀ j, j < rem → ∃ ex, (runTrial cfg (envs (i + j)) (i + j)).res = TrialRes.done ex) →
      ∀ j, j < rem → ∃ ex, (runTrial cfg (envs (i + j)) (i + j)).res = TrialRes.done ex ∧
        (execsFrom cfg envs i rem)[j]? = some ex := by
  intro rem
  induction rem with
  | zero => intro i _ j hj; exact absurd hj (Nat.not_lt_zero j)
  | succ rem ih =>
    intro i h j hj
    obtain ⟨ex, hex⟩ := h 0 (Nat.succ_pos rem)
    rw [Nat.add_zero] at hex
    have hrest : ∀ j, j < rem →
        ∃ ex, (runTrial cfg (envs ((i + 1) + j)) ((i + 1) + j)).res = TrialRes.done ex := by
      intro j hj
      have heq : (i + 1) + j = i + (j + 1) := by omega
      rw [heq]
      exact h (j + 1) (by omega)
    rw [execsFrom_succ, hex]
    dsimp only
    rcases j with _ | j'
    · rw [Nat.add_zero]
      exact ⟨ex, hex, by simp⟩
    · obtain ⟨ex', hres', hget'⟩ := ih (i + 1) hrest j' (by omega)
      have heq : i + (j' + 1) = (i + 1) + j' := by omega
      rw [heq]
      exact ⟨ex', hres', by simpa using hget'⟩

theorem segsFrom_mem (cfg : Config) (envs : Nat → TrialEnv) :
    ∀ rem i j, j < rem →
      (runTrial cfg (envs (i + j)) (i + j)).events ∈ segsFrom cfg envs i rem := by
  intro rem
  induction rem with
  | zero => intro i j hj; exact absurd hj (Nat.not_lt_zero j)
  | succ rem ih =>
    intro i j hj
    unfold segsFrom
    rcases j with _ | j'
    · rw [Nat.add_zero]
      exact List.mem_cons_self _ _
    · have heq : i + (j' + 1) = (i + 1) + j' := by omega
      rw [heq]
      exact List.mem_cons_of_mem _ (ih (i + 1) j' (by omega))

theorem segsFrom_mem_rev (cfg : Config) (envs : Nat → TrialEnv) :
    ∀ rem i l, l ∈ segsFrom cfg envs i rem →
      ∃ j, j < rem ∧ l = (runTrial cfg (envs (i + j)) (i + j)).events := by
  intro rem
  induction rem with
  | zero => intro i l hl; simp [segsFrom] at hl
  | succ rem ih =>
    intro i l hl
    unfold segsFrom at hl
    rcases List.mem_cons.mp hl with rfl | hl'
    · exact ⟨0, Nat.succ_pos rem, by rw [Nat.add_zero]⟩
    · obtain ⟨j, hj, hl2⟩ := ih (i + 1) l hl'
      refine ⟨j + 1, by omega, ?_⟩
      have heq : i + (j + 1) = (i + 1) + j := by omega
      rw [heq]
      exact hl2

theorem defersFrom_mem (cfg : Config) (envs : Nat → TrialEnv) :
    ∀ rem i j x, j < rem →
      x ∈ (runTrial cfg (envs (i + j)) (i + j)).defers → x ∈ defersFrom cfg envs i rem := by
  intro rem
  induction rem with
  | zero => intro i j x hj; exact absurd hj (Nat.not_lt_zero j)
  | succ rem ih =>
    intro i j x hj hx
    unfold defersFrom
    rw [List.mem_append]
    rcases j with _ | j'
    · rw [Nat.add_zero] at hx
      exact Or.inr hx
    · have heq : i + (j' + 1) = (i + 1) + j' := by omega
      rw [heq] at hx
      exact Or.inl (ih (i + 1) j' x (by omega) hx)

theorem defersFrom_mem_rev (cfg : Config) (envs : Nat → TrialEnv) :
    ∀ rem i x, x ∈ defersFrom cfg envs i rem →
      ∃ j, j < rem ∧ x ∈ (runTrial cfg (envs (i + j)) (i + j)).defers := by
  intro rem
  induction rem with
  | zero => intro i x hx; simp [defersFrom] at hx
  | succ rem ih =>
    intro i x hx
    unfold defersFrom at hx
    rcases List.mem_append.mp hx with hx' | hx'
    · obtain ⟨j, hj, hx2⟩ := ih (i + 1) x hx'
      refine ⟨j + 1, by omega, ?_⟩
      have heq : i + (j + 1) = (i + 1) + j := by omega
      rw [heq]
      exact hx2
    · exact ⟨0, Nat.succ_pos rem, by rw [Nat.add_zero]; exact hx'⟩

theorem Execute_ok_loop (cfg : Config) (oo : Except GoErr Unit) (envs : Nat → TrialEnv)
    (r : OutputResult) (h : (Execute cfg oo envs).outcome = RunOutcome.ok r) :
    Execute cfg oo envs = runLoop cfg envs (1 + cfg.AdditionalIterations) 0 [] [] [] := by
  unfold Execute at h ⊢
  split at h
  · rename_i hcond
    rw [if_pos hcond]
    rcases oo with e | u
    · simp at h
    · rfl
  · rename_i hcond
    rw [if_neg hcond]

theorem trialMain_events_shape (cfg : Config) (env : TrialEnv) (t : Nat) (evs ds : List Event) :
    ∃ tail, (trialMain cfg env t evs ds).events = evs ++ (Event.startProcess t :: tail) := by
  cases hnt : cfg.NoTrace with
  | true =>
    rw [trialMain_eq_untraced cfg env t evs ds hnt]
    exact ⟨((terminationCascade cfg env t).events ++ teardownEvents cfg t) ++ [Event.appendRun t],
      by simp [bodyEvents, List.append_assoc]⟩
  | false =>
    cases hp : env.parseResult with
    | ok s =>
      rw [trialMain_eq_traced_ok cfg env t evs ds s hnt hp]
      exact ⟨((terminationCascade cfg env t).events ++ teardownEvents cfg t) ++ [Event.appendRun t],
        by simp [bodyEvents, List.append_assoc]⟩
    | error e1 =>
      rw [trialMain_eq_traced_err cfg env t evs ds e1 hnt hp]
      exact ⟨(terminationCascade cfg env t).events ++ teardownEvents cfg t,
        by simp [bodyEvents]⟩

theorem discard_config_always_fatal (cfg : Config) (env : TrialEnv) (t : Nat)
    (h1 : cfg.DiscardSnapNs = true) (hRTS : cfg.RunThroughSnap = false) :
    ∃ e evs ds, trialSetup cfg env t = Except.error (e, evs, ds) := by
  have hsd : ∀ evs ds, setupDiscard cfg env t evs ds =
      Except.error (GoErr.mk "cannot use --discard-snap-ns without --use-snap-run", evs, ds) := by
    intro evs ds
    simp [setupDiscard, h1, hRTS]
  rcases hts : trialSetup cfg env t with ⟨e, evs, ds⟩ | ⟨evs, ds⟩
  · exact ⟨e, evs, ds, rfl⟩
  · exfalso
    unfold trialSetup at hts
    split at hts
    · cases hts
    · split at hts
      · cases hts
      · split at hts
        · cases hts
        · rename_i evs2 ds2 heq2
          rw [hsd] at heq2
          cases heq2

theorem trialSetup_pre_eq (cfg : Config) (env : TrialEnv) (t : Nat)
    (hpre : setupPreDiscardOk cfg env) :
    trialSetup cfg env t =
      (match setupDiscard cfg env t (preEvents cfg t) (preDefers cfg t) with
       | Except.error r => Except.error r
       | Except.ok (evs2, ds2) =>
         match env.freeCaches with
         | some e => Except.error (e, evs2, ds2)
         | none => Except.ok (evs2, ds2)) := by
  obtain ⟨htr, hso, hse⟩ := hpre
  unfold trialSetup
  have h0 : (if cfg.NoTrace then (Except.ok ([], []) :
      Except (GoErr × List Event × List Event) (List Event × List Event))
    else traceSetup env t) =
      Except.ok (preEvents cfg t,
        if cfg.NoTrace then [] else [Event.closeSentinel t, Event.removeTmpDir t]) := by
    cases hnt : cfg.NoTrace with
    | true => simp [preEvents, hnt]
    | false =>
      obtain ⟨ht1, ht2, ht3, ht4⟩ := htr hnt
      simp [preEvents, hnt, traceSetup, ht1, ht2, ht3, ht4]
  rw [h0]
  dsimp only
  have hlog : setupLogs cfg env t (preEvents cfg t)
      (if cfg.NoTrace then [] else [Event.closeSentinel t, Event.removeTmpDir t]) =
      Except.ok (preEvents cfg t, preDefers cfg t) := by
    unfold setupLogs preDefers
    by_cases hs1 : cfg.ProgramStdoutLog = "" <;> by_cases hs2 : cfg.ProgramStderrLog = ""
    · simp [hs1, hs2]
    · simp [hs1, hs2, hse hs2]
    · simp [hs1, hs2, hso hs1]
    · simp [hs1, hs2, hso hs1, hse hs2]
  rw [hlog]

theorem resolvePids_break (t : Nat) (f : String → Except GoErr Int) :
    ∀ (pre : List String) (w : String) (suf : List String) (e : GoErr),
      (∀ x ∈ pre, ∃ p, f x = Except.ok p) → f w = Except.error e →
      ∃ ps, ps.length = pre.length ∧
        resolvePids t f (pre ++ w :: suf) =
          ⟨ps ++ 0 :: suf.map (fun _ => (0 : Int)),
           [GoErr.wrap ("getting pid for wid " ++ w) e], true,
           pre.map (Event.pidQuery t) ++ [Event.pidQuery t w]⟩ := by
  intro pre
  induction pre with
  | nil =>
    intro w suf e _ hw
    refine ⟨[], rfl, ?_⟩
    rw [List.nil_append]
    unfold resolvePids
    rw [hw]
    simp
  | cons x xs ih =>
    intro w suf e hpre hw
    obtain ⟨p, hp⟩ := hpre x (List.mem_cons_self x xs)
    obtain ⟨ps, hlen, heq⟩ := ih w suf e (fun y hy => hpre y (List.mem_cons_of_mem x hy)) hw
    refine ⟨p :: ps, by simp [hlen], ?_⟩
    show resolvePids t f (x :: (xs ++ w :: suf)) = _
    unfold resolvePids
    rw [hp]
    dsimp only
    rw [heq]
    simp
/-- C8: the WindowSpec resolver always succeeds and sets exactly one of
class and name: the class override if given; else the window name if given;
else the class derived via filepath.Base from the first token of the
original command (windowSpecOf reads cfg.Cmd, never the snap-run adjusted
command). -/
theorem c8_window_spec_resolver (wc wn c0 : String) :
    (((resolveWindowSpec wc wn c0).Class ≠ "" ∧ (resolveWindowSpec wc wn c0).Name = "") ∨
     ((resolveWindowSpec wc wn c0).Class = "" ∧ (resolveWindowSpec wc wn c0).Name ≠ "")) ∧
    (wc ≠ "" → resolveWindowSpec wc wn c0 = ⟨wc, ""⟩) ∧
    (wc = "" → wn ≠ "" → resolveWindowSpec wc wn c0 = ⟨"", wn⟩) ∧
    (wc = "" → wn = "" → resolveWindowSpec wc wn c0 = ⟨filepathBase c0, ""⟩) ∧
    (∀ cfg : Config, windowSpecOf cfg =
       resolveWindowSpec cfg.WindowClass cfg.WindowName (cfg.Cmd.headD "")) := by
  by_cases hwc : wc = ""
  · by_cases hwn : wn = ""
    · refine ⟨Or.inl ⟨?_, ?_⟩, ?_, ?_, ?_, fun _ => rfl⟩ <;>
        simp [resolveWindowSpec, hwc, hwn, filepathBase_ne_empty c0]
    · refine ⟨Or.inr ⟨?_, ?_⟩, ?_, ?_, ?_, fun _ => rfl⟩ <;>
        simp [resolveWindowSpec, hwc, hwn]
  · refine ⟨Or.inl ⟨?_, ?_⟩, ?_, ?_, ?_, fun _ => rfl⟩ <;>
      simp [resolveWindowSpec, hwc]

/-- Witness for C8: with no class and no name given, the class comes from
the base name of the first command token. -/
theorem c8_window_spec_resolver_witness :
    resolveWindowSpec "" "" "/usr/bin/sample-app" = ⟨"sample-app", ""⟩ := by
  have h := (c8_window_spec_resolver "" "" "/usr/bin/sample-app").2.2.2.1 rfl rfl
  rw [h]
  decide

/-- C9: the cmd.Start error is discarded - it is overwritten before it is
ever read, so the whole observable trial output is independent of it: it is
never logged and the trial proceeds to window wait, the termination cascade
and result assembly exactly as if the process had started. -/
theorem c9_start_error_discarded (cfg : Config) (env : TrialEnv) (t : Nat) (a b : Option GoErr) :
    runTrial cfg { env with startErr := a } t = runTrial cfg { env with startErr := b } t := by
  cases env
  rfl

/-- C4: for every completed trial, untraced mode makes the run time equal
the display time exactly; traced mode takes the run time from the parser
total duration, with the parsed timing recorded, and the display time is
the separately measured startup latency. -/
theorem c4_run_time_source (cfg : Config) (env : TrialEnv) (t : Nat) (ex : Execution)
    (h : (runTrial cfg env t).res = TrialRes.done ex) :
    (cfg.NoTrace = true → ex.TimeToRun = ex.TimeToDisplay) ∧
    (cfg.NoTrace = false → ∃ s, env.parseResult = Except.ok s ∧
       ex.ExecveTiming = some s ∧ ex.TimeToRun = s.TotalTime ∧
       ex.TimeToDisplay = env.startupTime) := by
  obtain ⟨evs, ds, hts, hdef, hev, hcase⟩ := runTrial_done_cases cfg env t ex h
  rcases hcase with ⟨hnt, rfl⟩ | ⟨s, hnt, hp, rfl⟩
  · refine ⟨fun _ => rfl, fun hf => ?_⟩
    rw [hnt] at hf
    cases hf
  · refine ⟨fun htr => ?_, fun _ => ⟨s, hp, rfl, rfl, rfl⟩⟩
    rw [hnt] at htr
    cases htr

/-- Witness for C4: a traced trial that completes with parse total 42 and
display latency 5 - the run time is the parser total, not the display
time. -/
theorem c4_run_time_source_witness :
    (runTrial cfgTraced okEnv 0).res = TrialRes.done ⟨some ⟨42⟩, 5, 42, []⟩ ∧
    ((cfgTraced.NoTrace = true →
        (Execution.mk (some ⟨42⟩) 5 42 []).TimeToRun =
          (Execution.mk (some ⟨42⟩) 5 42 []).TimeToDisplay) ∧
     (cfgTraced.NoTrace = false → ∃ s, okEnv.parseResult = Except.ok s ∧
        (Execution.mk (some ⟨42⟩) 5 42 []).ExecveTiming = some s ∧
        (Execution.mk (some ⟨42⟩) 5 42 []).TimeToRun = s.TotalTime ∧
        (Execution.mk (some ⟨42⟩) 5 42 []).TimeToDisplay = okEnv.startupTime)) :=
  ⟨by decide, c4_run_time_source cfgTraced okEnv 0 ⟨some ⟨42⟩, 5, 42, []⟩ (by decide)⟩

/-- C5: a run that completes without a fatal setup error contains exactly
1 + AdditionalIterations Execution records, one per trial, in trial
order. -/
theorem c5_one_execution_per_trial (cfg : Config) (oo : Except GoErr Unit)
    (envs : Nat → TrialEnv) (r : OutputResult)
    (h : (Execute cfg oo envs).outcome = RunOutcome.ok r) :
    r.Runs.length = 1 + cfg.AdditionalIterations ∧
    ∀ j, j < 1 + cfg.AdditionalIterations →
      ∃ ex, (runTrial cfg (envs j) j).res = TrialRes.done ex ∧ r.Runs[j]? = some ex := by
  have hE := Execute_ok_loop cfg oo envs r h
  rw [hE] at h
  have hall : ∀ j, j < 1 + cfg.AdditionalIterations →
      ∃ ex, (runTrial cfg (envs (0 + j)) (0 + j)).res = TrialRes.done ex :=
    runLoop_all_done cfg envs (1 + cfg.AdditionalIterations) 0 [] [] [] r h
  have heq := runLoop_eq_of_all_done cfg envs (1 + cfg.AdditionalIterations) 0 [] [] [] hall
  rw [heq] at h
  dsimp only at h
  injection h with h
  subst h
  constructor
  · show ([] ++ execsFrom cfg envs 0 (1 + cfg.AdditionalIterations)).length = _
    rw [List.nil_append]
    exact execsFrom_length cfg envs (1 + cfg.AdditionalIterations) 0 hall
  · intro j hj
    obtain ⟨ex, hres, hget⟩ := execsFrom_get cfg envs (1 + cfg.AdditionalIterations) 0 hall j hj
    rw [Nat.zero_add] at hres
    refine ⟨ex, hres, ?_⟩
    show ([] ++ execsFrom cfg envs 0 (1 + cfg.AdditionalIterations))[j]? = some ex
    rw [List.nil_append]
    exact hget

/-- Witness for C5: a one-trial untraced run produces exactly one Execution
record holding the trial data. -/
theorem c5_one_execution_per_trial_witness :
    (OutputResult.mk [⟨none, 5, 5, []⟩]).Runs.length = 1 + cfgUntraced.AdditionalIterations ∧
    ∀ j, j < 1 + cfgUntraced.AdditionalIterations →
      ∃ ex, (runTrial cfgUntraced ((fun _ => okEnv) j) j).res = TrialRes.done ex ∧
        (OutputResult.mk [⟨none, 5, 5, []⟩]).Runs[j]? = some ex :=
  c5_one_execution_per_trial cfgUntraced (Except.ok ()) (fun _ => okEnv)
    ⟨[⟨none, 5, 5, []⟩]⟩ (by decide)

/-- C1, code evaluated at the failing input: in a traced trial whose trace
parse fails, the wrapped parse error is logged as the claim says, but the
trial then dereferences the nil timing pointer (slg.TotalTime, main.go
line 371) and the whole run dies with a panic after the teardown receive -
no Execution record with a run time is ever built or appended. -/
theorem c1_parse_failure_panics :
    (Execute cfgTraced (Except.ok ()) (fun _ => envParseFail)).outcome = RunOutcome.panicked ∧
    GoErr.wrap "cannot extract runtime data" (GoErr.mk "parse failure")
      ∈ trialErrs cfgTraced envParseFail 0 ∧
    Event.awaitDone 0 ∈ eventTrace (Execute cfgTraced (Except.ok ()) (fun _ => envParseFail)) :=
  ⟨by decide, by decide, by decide⟩

/-- C2 counterexample: tracing on, the window wait times out: the trial
records exactly the wait error and still completes with the parser run
time, but no pid query, no window close, no kill and - against the claim -
no wmctrl fallback close-by-name happens: the full event trace of the run
contains none of those events. -/
theorem c2_counterexample :
    (Execute cfgTraced (Except.ok ()) (fun _ => envWaitFail)).outcome =
      RunOutcome.ok ⟨[⟨some ⟨42⟩, 5, 42,
        [GoErr.wrap "waiting for window appearance" (GoErr.mk "window wait timeout")]⟩]⟩ ∧
    eventTrace (Execute cfgTraced (Except.ok ()) (fun _ => envWaitFail)) =
      [Event.createTmpDir 0, Event.startProcess 0, Event.waitWindow 0,
       Event.closeSentinel 0, Event.awaitDone 0, Event.appendRun 0,
       Event.closeSentinel 0, Event.removeTmpDir 0] :=
  ⟨by decide, by decide⟩

/-- C2 amended: when the window wait fails the error is recorded and pid
resolution, window closing and killing are skipped, but the manager-level
fallback close-by-name is NOT invoked for that trial (it only runs when a
pid, close or kill failure forces it): the cascade contributes exactly the
wrapped wait error and the wait event, and that error reaches the trial
error list. -/
theorem c2_wait_failure_no_fallback (cfg : Config) (env : TrialEnv) (t : Nat) (e : GoErr)
    (hnw : cfg.NoWindowWait = false)
    (hw : env.waitForWindow (windowSpecOf cfg) = Except.error e) :
    terminationCascade cfg env t =
      ⟨[GoErr.wrap "waiting for window appearance" e], [Event.waitWindow t]⟩ ∧
    GoErr.wrap "waiting for window appearance" e ∈ trialErrs cfg env t := by
  have hc : terminationCascade cfg env t =
      ⟨[GoErr.wrap "waiting for window appearance" e], [Event.waitWindow t]⟩ := by
    simp [terminationCascade, hnw, hw]
  refine ⟨hc, ?_⟩
  unfold trialErrs
  rw [hc]
  simp

/-- Witness for C2 amended, at the concrete timed-out environment. -/
theorem c2_wait_failure_no_fallback_witness :
    terminationCascade cfgTraced envWaitFail 0 =
      ⟨[GoErr.wrap "waiting for window appearance" (GoErr.mk "window wait timeout")],
       [Event.waitWindow 0]⟩ ∧
    GoErr.wrap "waiting for window appearance" (GoErr.mk "window wait timeout")
      ∈ trialErrs cfgTraced envWaitFail 0 :=
  c2_wait_failure_no_fallback cfgTraced envWaitFail 0 (GoErr.mk "window wait timeout") rfl rfl

/-- C3 counterexample: in a two-trial traced run the temporary directory of
trial 0 is not removed before trial 1 begins: no removal happens in any
trial body, the removals all sit in the defer flush at the end of the whole
run, and trial 1 creates its directory (eventTrace position 9) while the
removal of the trial 0 directory is still pending (position 21). -/
theorem c3_counterexample :
    Event.createTmpDir 1 ∈
      (Execute cfgTwoTrials (Except.ok ()) (fun _ => okEnv)).trialEvents.flatten ∧
    Event.removeTmpDir 0 ∉
      (Execute cfgTwoTrials (Except.ok ()) (fun _ => okEnv)).trialEvents.flatten ∧
    (Execute cfgTwoTrials (Except.ok ()) (fun _ => okEnv)).deferFlush =
      [Event.closeSentinel 1, Event.removeTmpDir 1,
       Event.closeSentinel 0, Event.removeTmpDir 0] ∧
    eventBefore (Event.createTmpDir 1) (Event.removeTmpDir 0)
      (eventTrace (Execute cfgTwoTrials (Except.ok ()) (fun _ => okEnv))) :=
  ⟨by decide, by decide, by decide, ⟨9, 21, by omega, by decide, by decide⟩⟩

/-- C3 amended: in a traced run that completes, each temporary trace
directory is removed only in the deferred cleanup at run exit: no removal
event occurs in any trial body segment, and each trial removal sits in the
final defer flush after all trials - so the directory of a non-final trial
is not removed before the next trial begins. -/
theorem c3_remove_only_at_run_exit (cfg : Config) (oo : Except GoErr Unit)
    (envs : Nat → TrialEnv) (r : OutputResult)
    (hnt : cfg.NoTrace = false) (h : (Execute cfg oo envs).outcome = RunOutcome.ok r) :
    ∀ t, t < 1 + cfg.AdditionalIterations →
      Event.removeTmpDir t ∉ (Execute cfg oo envs).trialEvents.flatten ∧
      Event.removeTmpDir t ∈ (Execute cfg oo envs).deferFlush := by
  have hE := Execute_ok_loop cfg oo envs r h
  rw [hE] at h ⊢
  have hall : ∀ j, j < 1 + cfg.AdditionalIterations →
      ∃ ex, (runTrial cfg (envs (0 + j)) (0 + j)).res = TrialRes.done ex :=
    runLoop_all_done cfg envs (1 + cfg.AdditionalIterations) 0 [] [] [] r h
  have heq := runLoop_eq_of_all_done cfg envs (1 + cfg.AdditionalIterations) 0 [] [] [] hall
  rw [heq]
  intro t ht
  dsimp only
  constructor
  · intro hmem
    rw [List.nil_append, List.mem_flatten] at hmem
    obtain ⟨l, hlS, hml⟩ := hmem
    obtain ⟨j, hj, rfl⟩ := segsFrom_mem_rev cfg envs (1 + cfg.AdditionalIterations) 0 l hlS
    have := runTrial_events_not_remove cfg (envs (0 + j)) (0 + j) _ hml
    simp [isRemove] at this
  · obtain ⟨ex, hres⟩ := hall t ht
    rw [Nat.zero_add] at hres
    have hd := runTrial_done_defers_remove cfg (envs t) t ex hnt hres
    have hmem := defersFrom_mem cfg envs (1 + cfg.AdditionalIterations) 0 t
      (Event.removeTmpDir t) ht (by rw [Nat.zero_add]; exact hd)
    rw [List.append_nil]
    exact hmem

/-- Witness for C3 amended, at a completing single-trial traced run. -/
theorem c3_remove_only_at_run_exit_witness :
    Event.removeTmpDir 0 ∉
      (Execute cfgTraced (Except.ok ()) (fun _ => okEnv)).trialEvents.flatten ∧
    Event.removeTmpDir 0 ∈ (Execute cfgTraced (Except.ok ()) (fun _ => okEnv)).deferFlush :=
  c3_remove_only_at_run_exit cfgTraced (Except.ok ()) (fun _ => okEnv)
    ⟨[⟨some ⟨42⟩, 5, 42, []⟩]⟩ rfl (by decide) 0 (by omega)

/-- C7 counterexample: on the fatal path where the tracer-wrapped command
creation fails, the run aborts and the deferred removal of the trace
directory runs immediately - the control thread never receives from the
background reader completion channel, so the directory removal is not
ordered after the completion signal. -/
theorem c7_counterexample :
    (Execute cfgTraced (Except.ok ()) (fun _ => envTraceCmdFail)).outcome =
      RunOutcome.fatal (GoErr.mk "exec strace") ∧
    Event.removeTmpDir 0 ∈
      eventTrace (Execute cfgTraced (Except.ok ()) (fun _ => envTraceCmdFail)) ∧
    Event.awaitDone 0 ∉
      eventTrace (Execute cfgTraced (Except.ok ()) (fun _ => envTraceCmdFail)) :=
  ⟨by decide, by decide, by decide⟩

/-- C7 amended: on runs that complete normally, every removal of a trial
temporary trace directory is preceded in the event trace by that trial
receive on the background reader completion channel; the guarantee does not
extend to fatal error paths that abort the run between trace setup and
teardown. -/
theorem c7_await_before_remove (cfg : Config) (oo : Except GoErr Unit)
    (envs : Nat → TrialEnv) (r : OutputResult) (t : Nat)
    (hnt : cfg.NoTrace = false) (h : (Execute cfg oo envs).outcome = RunOutcome.ok r)
    (ht : t < 1 + cfg.AdditionalIterations) :
    eventBefore (Event.awaitDone t) (Event.removeTmpDir t)
      (eventTrace (Execute cfg oo envs)) := by
  have hE := Execute_ok_loop cfg oo envs r h
  rw [hE] at h ⊢
  have hall : ∀ j, j < 1 + cfg.AdditionalIterations →
      ∃ ex, (runTrial cfg (envs (0 + j)) (0 + j)).res = TrialRes.done ex :=
    runLoop_all_done cfg envs (1 + cfg.AdditionalIterations) 0 [] [] [] r h
  have heq := runLoop_eq_of_all_done cfg envs (1 + cfg.AdditionalIterations) 0 [] [] [] hall
  rw [heq]
  unfold eventTrace
  dsimp only
  obtain ⟨ex, hres⟩ := hall t ht
  rw [Nat.zero_add] at hres
  have ha : Event.awaitDone t ∈
      (segsFrom cfg envs 0 (1 + cfg.AdditionalIterations)).flatten := by
    rw [List.mem_flatten]
    refine ⟨(runTrial cfg (envs t) t).events, ?_,
      runTrial_done_await cfg (envs t) t ex hnt hres⟩
    have := segsFrom_mem cfg envs (1 + cfg.AdditionalIterations) 0 t ht
    simpa using this
  have hb : Event.removeTmpDir t ∈ defersFrom cfg envs 0 (1 + cfg.AdditionalIterations) := by
    have hd := runTrial_done_defers_remove cfg (envs t) t ex hnt hres
    exact defersFrom_mem cfg envs (1 + cfg.AdditionalIterations) 0 t
      (Event.removeTmpDir t) ht (by rw [Nat.zero_add]; exact hd)
  exact before_append (by simpa using ha) (by simpa using hb)

/-- Witness for C7 amended, at a completing single-trial traced run. -/
theorem c7_await_before_remove_witness :
    eventBefore (Event.awaitDone 0) (Event.removeTmpDir 0)
      (eventTrace (Execute cfgTraced (Except.ok ()) (fun _ => okEnv))) :=
  c7_await_before_remove cfgTraced (Except.ok ()) (fun _ => okEnv)
    ⟨[⟨some ⟨42⟩, 5, 42, []⟩]⟩ 0 rfl (by decide) (by omega)

/-- C6: requesting the namespace discard without snap-run mode makes every
trial fail with a fatal error before any target process is started: the
trial result is fatal, no start event occurs anywhere in the run trace, and
when the earlier setup steps succeed the error is exactly the configuration
error.  With both flags set, the discard is keyed on the first token of the
original command - cfg.Cmd, not the snap-run adjusted command - and its
event precedes the process start event. -/
theorem c6_discard_requires_snap_run (cfg : Config) (oo : Except GoErr Unit)
    (envs : Nat → TrialEnv) (env : TrialEnv) (t : Nat)
    (h1 : cfg.DiscardSnapNs = true) :
    (cfg.RunThroughSnap = false →
       (∃ e, (runTrial cfg env t).res = TrialRes.fatal e) ∧
       (setupPreDiscardOk cfg env →
          (runTrial cfg env t).res =
            TrialRes.fatal (GoErr.mk "cannot use --discard-snap-ns without --use-snap-run")) ∧
       ((cfg.OutputFile = "" ∨ oo = Except.ok ()) →
          (∃ e, (Execute cfg oo envs).outcome = RunOutcome.fatal e) ∧
          (∀ t', Event.startProcess t' ∉ eventTrace (Execute cfg oo envs)))) ∧
    (cfg.RunThroughSnap = true → setupPreDiscardOk cfg env →
       env.discardNsResult (cfg.Cmd.headD "") = none → env.freeCaches = none →
       Event.discardNs t (cfg.Cmd.headD "") ∈ (runTrial cfg env t).events ∧
       eventBefore (Event.discardNs t (cfg.Cmd.headD "")) (Event.startProcess t)
         (runTrial cfg env t).events) := by
  constructor
  · intro hRTS
    have hsd : ∀ evs ds, setupDiscard cfg env t evs ds =
        Except.error (GoErr.mk "cannot use --discard-snap-ns without --use-snap-run", evs, ds) := by
      intro evs ds
      simp [setupDiscard, h1, hRTS]
    obtain ⟨e0, evs0, ds0, hts⟩ := discard_config_always_fatal cfg env t h1 hRTS
    refine ⟨⟨e0, by rw [runTrial_eq_fatal cfg env t e0 evs0 ds0 hts]⟩, ?_, ?_⟩
    · intro hpre
      have hts2 : trialSetup cfg env t =
          Except.error (GoErr.mk "cannot use --discard-snap-ns without --use-snap-run",
            preEvents cfg t, preDefers cfg t) := by
        rw [trialSetup_pre_eq cfg env t hpre, hsd]
      rw [runTrial_eq_fatal cfg env t _ _ _ hts2]
    · intro hoo
      obtain ⟨e1, evs1, ds1, hts1⟩ := discard_config_always_fatal cfg (envs 0) 0 h1 hRTS
      have hrt0 : runTrial cfg (envs 0) 0 = ⟨TrialRes.fatal e1, evs1, ds1⟩ :=
        runTrial_eq_fatal cfg (envs 0) 0 e1 evs1 ds1 hts1
      have hsucc : 1 + cfg.AdditionalIterations = cfg.AdditionalIterations + 1 := by omega
      have hloop : runLoop cfg envs (1 + cfg.AdditionalIterations) 0 [] [] [] =
          ⟨RunOutcome.fatal e1, [evs1], ds1⟩ := by
        rw [hsucc]
        simp only [runLoop]
        rw [hrt0]
        dsimp only
        simp
      have hEx : Execute cfg oo envs = ⟨RunOutcome.fatal e1, [evs1], ds1⟩ := by
        unfold Execute
        rcases hoo with hfile | hok
        · rw [if_neg (by simp [hfile])]
          exact hloop
        · rw [hok]
          split
          · exact hloop
          · exact hloop
      refine ⟨⟨e1, by rw [hEx]⟩, ?_⟩
      intro t' hmem
      rw [hEx] at hmem
      unfold eventTrace at hmem
      dsimp only at hmem
      rw [List.mem_append] at hmem
      rcases hmem with hmem | hmem
      · have hmem1 : Event.startProcess t' ∈ evs1 := by simpa using hmem
        rcases ((trialSetup_shape cfg (envs 0) 0).1 e1 evs1 ds1 hts1).1 _ hmem1 with heq | heq <;>
          simp at heq
      · have hdef := runTrial_defers_deferish cfg (envs 0) 0
        rw [hrt0] at hdef
        have := hdef _ hmem
        simp [isDeferish] at this
  · intro hRTS hpre hdn hfc
    have hsd2 : setupDiscard cfg env t (preEvents cfg t) (preDefers cfg t) =
        Except.ok (preEvents cfg t ++ [Event.discardNs t (cfg.Cmd.headD "")],
          preDefers cfg t) := by
      have hdn2 : env.discardNsResult (cfg.Cmd.head?.getD "") = none := by
        rw [← List.headD_eq_head?_getD]
        exact hdn
      simp [setupDiscard, h1, hRTS, hdn2]
    have hts2 : trialSetup cfg env t =
        Except.ok (preEvents cfg t ++ [Event.discardNs t (cfg.Cmd.headD "")],
          preDefers cfg t) := by
      rw [trialSetup_pre_eq cfg env t hpre, hsd2]
      dsimp only
      rw [hfc]
    rw [runTrial_eq_main cfg env t _ _ hts2]
    obtain ⟨tail, htail⟩ := trialMain_events_shape cfg env t
      (preEvents cfg t ++ [Event.discardNs t (cfg.Cmd.headD "")]) (preDefers cfg t)
    rw [htail]
    have hdm : Event.discardNs t (cfg.Cmd.headD "") ∈
        preEvents cfg t ++ [Event.discardNs t (cfg.Cmd.headD "")] := by
      rw [List.mem_append]
      right
      exact List.mem_singleton_self _
    constructor
    · rw [List.mem_append]
      exact Or.inl hdm
    · exact before_append hdm (List.mem_cons_self _ _)

/-- Witness for C6, at a configuration requesting the discard without
snap-run mode. -/
theorem c6_discard_requires_snap_run_witness :
    ((cfgDiscard.RunThroughSnap = false →
       (∃ e, (runTrial cfgDiscard okEnv 0).res = TrialRes.fatal e) ∧
       (setupPreDiscardOk cfgDiscard okEnv →
          (runTrial cfgDiscard okEnv 0).res =
            TrialRes.fatal (GoErr.mk "cannot use --discard-snap-ns without --use-snap-run")) ∧
       ((cfgDiscard.OutputFile = "" ∨ (Except.ok () : Except GoErr Unit) = Except.ok ()) →
          (∃ e, (Execute cfgDiscard (Except.ok ()) (fun _ => okEnv)).outcome =
             RunOutcome.fatal e) ∧
          (∀ t', Event.startProcess t' ∉
             eventTrace (Execute cfgDiscard (Except.ok ()) (fun _ => okEnv))))) ∧
     (cfgDiscard.RunThroughSnap = true → setupPreDiscardOk cfgDiscard okEnv →
       okEnv.discardNsResult (cfgDiscard.Cmd.headD "") = none → okEnv.freeCaches = none →
       Event.discardNs 0 (cfgDiscard.Cmd.headD "") ∈ (runTrial cfgDiscard okEnv 0).events ∧
       eventBefore (Event.discardNs 0 (cfgDiscard.Cmd.headD "")) (Event.startProcess 0)
         (runTrial cfgDiscard okEnv 0).events)) :=
  c6_discard_requires_snap_run cfgDiscard (Except.ok ()) (fun _ => okEnv) okEnv 0 rfl

/-- C10: when pid resolution fails at a window that is not the last, the
remaining windows are never queried (only the successful prefix and the
failing window produce pid queries: the loop breaks), yet the kill stage
still issues one termination signal per slot of the pids slice - as many
kill events as discovered windows, including the kill of the zero-valued
placeholder pid of every unresolved window, which reaches the cascade event
stream. -/
theorem c10_kill_zero_placeholder (cfg : Config) (env : TrialEnv) (t : Nat)
    (pre : List String) (w : String) (suf : List String) (e : GoErr)
    (hnw : cfg.NoWindowWait = false)
    (hw : env.waitForWindow (windowSpecOf cfg) = Except.ok (pre ++ w :: suf))
    (hpre : ∀ x ∈ pre, ∃ p, env.pidForWindowID x = Except.ok p)
    (hfail : env.pidForWindowID w = Except.error e)
    (hsuf : suf ≠ []) :
    (resolvePids t env.pidForWindowID (pre ++ w :: suf)).events.length = pre.length + 1 ∧
    (resolvePids t env.pidForWindowID (pre ++ w :: suf)).pids.length =
      (pre ++ w :: suf).length ∧
    (killPids t env.signal (resolvePids t env.pidForWindowID (pre ++ w :: suf)).pids).events =
      (resolvePids t env.pidForWindowID (pre ++ w :: suf)).pids.map (Event.kill t) ∧
    (killPids t env.signal
      (resolvePids t env.pidForWindowID (pre ++ w :: suf)).pids).events.length =
      (pre ++ w :: suf).length ∧
    Event.kill t 0 ∈ (terminationCascade cfg env t).events := by
  obtain ⟨ps, hlen, heq⟩ := resolvePids_break t env.pidForWindowID pre w suf e hpre hfail
  have h0mem : (0 : Int) ∈ (resolvePids t env.pidForWindowID (pre ++ w :: suf)).pids := by
    rw [heq]
    dsimp only
    rw [List.mem_append]
    right
    exact List.mem_cons_self _ _
  refine ⟨?_, ?_, killPids_events_eq t env.signal _, ?_, ?_⟩
  · rw [heq]
    simp
  · rw [heq]
    simp [hlen]
  · rw [killPids_events_eq, List.length_map, heq]
    simp [hlen]
  · have hkill : Event.kill t 0 ∈ (killPids t env.signal
        (resolvePids t env.pidForWindowID (pre ++ w :: suf)).pids).events := by
      rw [killPids_events_eq]
      exact List.mem_map_of_mem _ h0mem
    have hnw2 : ¬ (cfg.NoWindowWait = true) := by rw [hnw]; simp
    unfold terminationCascade
    rw [if_neg hnw2, hw]
    dsimp only
    rw [List.mem_cons]
    right
    rw [List.mem_append]
    left
    rw [List.mem_append]
    right
    exact hkill

/-- Witness for C10: three windows, the second fails to resolve - two pid
queries, three kills, one of them of the placeholder pid 0 for the third
window. -/
theorem c10_kill_zero_placeholder_witness :
    (resolvePids 0 envPidFail.pidForWindowID ["w1", "w2", "w3"]).events.length = 2 ∧
    (resolvePids 0 envPidFail.pidForWindowID ["w1", "w2", "w3"]).pids.length = 3 ∧
    (killPids 0 envPidFail.signal
      (resolvePids 0 envPidFail.pidForWindowID ["w1", "w2", "w3"]).pids).events =
      (resolvePids 0 envPidFail.pidForWindowID ["w1", "w2", "w3"]).pids.map (Event.kill 0) ∧
    (killPids 0 envPidFail.signal
      (resolvePids 0 envPidFail.pidForWindowID ["w1", "w2", "w3"]).pids).events.length = 3 ∧
    Event.kill 0 0 ∈ (terminationCascade cfgTraced envPidFail 0).events :=
  c10_kill_zero_placeholder cfgTraced envPidFail 0 ["w1"] "w2" ["w3"] (GoErr.mk "no pid")
    rfl rfl (fun x hx => by simp at hx; subst hx; exact ⟨100, rfl⟩) rfl (by simp)
end Etrace
